import Mathlib

/-!
Verification of the gesture-to-pluck interaction engine of the
air-piano application.  The definitions below are a shallow embedding of
the TypeScript sources:

* `generateStringConfigs`  —  src/constants.ts  (string layout generator)
* `VisionState.detect` / `VisionState.detectE`  —  src/services/visionService.ts
* `requestLoad` / `completeLoad`  —  src/services/audioService.ts
* `tick` and its helpers  —  src/components/SkyStage.tsx (the frame loop)

Real-number quantities of the program (normalized coordinates, times in
milliseconds, physics values) are modelled as exact rationals `ℚ`.
-/

namespace AirPiano

/-! ## String layout generator (src/constants.ts) -/

/-- Pitch range selector (`PitchRange` enum in src/types.ts). -/
inductive PitchRange where
  | low
  | mid
  | high
deriving DecidableEq

/-- A string descriptor (`StringConfig` in src/types.ts). -/
structure StringConfig where
  id : Nat
  note : String
  color : String
  xPos : ℚ
deriving DecidableEq

/-- Constant `CONFIG.DEBOUNCE_MS` from src/constants.ts. -/
def DEBOUNCE_MS : ℚ := 120

/-- Constant `C_MAJOR_SCALE` from src/constants.ts. -/
def C_MAJOR_SCALE : List String := ["C", "D", "E", "F", "G", "A", "B"]

/-- Constant `STRING_COLORS` from src/constants.ts. -/
def STRING_COLORS : List String :=
  ["#FF595E", "#FF924C", "#FFCA3A", "#C5CA30", "#8AC926",
   "#52A675", "#1982C4", "#4267AC", "#6A4C93", "#B5A6C9"]

/-- Octave start offset chosen by pitch range (body of `generateStringConfigs`):
4 by default (mid), 3 for low, 5 for high. -/
def octaveStart : PitchRange → Nat
  | PitchRange.low => 3
  | PitchRange.mid => 4
  | PitchRange.high => 5

/-- Function `generateStringConfigs` from src/constants.ts: `count` descriptors, the
i-th carrying note `C_MAJOR_SCALE[i % 7]` with octave `octaveStart + i / 7`,
color cycling through `STRING_COLORS`, and `xPos = (i + 1) / (count + 1)`. -/
def generateStringConfigs (count : Nat) (range : PitchRange) : List StringConfig :=
  (List.range count).map fun i =>
    { id := i
      note := C_MAJOR_SCALE.getD (i % C_MAJOR_SCALE.length) "C"
                ++ toString (octaveStart range + i / C_MAJOR_SCALE.length)
      color := STRING_COLORS.getD (i % STRING_COLORS.length) ""
      xPos := ((i : ℚ) + 1) / ((count : ℚ) + 1) }

/-! ## Hand-tracking adapter (src/services/visionService.ts) -/

/-- A detected hand.  Only landmark 8 (the index fingertip) feeds the
interaction engine, so a hand is modelled by that optional landmark
(`landmarks[8]` may be absent), in normalized image coordinates. -/
structure Hand where
  tip : Option (ℚ × ℚ)
deriving DecidableEq

/-- The result object returned by the underlying detector
(`HandLandmarkerResult`): its `landmarks` array, one entry per hand. -/
structure DetectResult where
  landmarks : List Hand
deriving DecidableEq

/-- Mutable state of `VisionService`: whether `handLandmarker` has been
created by `initialize`, and `lastVideoTime` used for frame dedup. -/
structure VisionState where
  handLandmarker : Bool
  lastVideoTime : ℚ
deriving DecidableEq

/-- The fresh `VisionService` (field initializers: no landmarker yet,
`lastVideoTime = -1`). -/
def VisionState.start : VisionState := { handLandmarker := false, lastVideoTime := -1 }

/-- Method `VisionService.detect`: returns `null` when the landmarker is missing;
when the video's `currentTime` differs from `lastVideoTime`, records it and
invokes the underlying detector; otherwise returns `null`.  `ud` models
`detectForVideo` as a function of the frame identity.  The result is
(returned value, updated service state, whether the detector was invoked). -/
def VisionState.detect (st : VisionState) (ud : ℚ → DetectResult) (currentTime : ℚ) :
    Option DetectResult × VisionState × Bool :=
  if st.handLandmarker = false then (none, st, false)
  else if currentTime ≠ st.lastVideoTime then
    (some (ud currentTime), { st with lastVideoTime := currentTime }, true)
  else (none, st, false)

/-- Method `VisionService.detect` with a possibly-throwing underlying detector:
`detectForVideo` is modelled as returning `Except`, and `detect` has no
try/catch, so an error from `ud` is returned as an error (the exception
propagates to detect's caller).  `lastVideoTime` is assigned before the
detector runs, as in the source. -/
def VisionState.detectE (st : VisionState) (ud : ℚ → Except String DetectResult)
    (currentTime : ℚ) : Except String (Option DetectResult) × VisionState :=
  if st.handLandmarker = false then (Except.ok none, st)
  else if currentTime ≠ st.lastVideoTime then
    (Except.map some (ud currentTime), { st with lastVideoTime := currentTime })
  else (Except.ok none, st)

/-! ## Audio service (src/services/audioService.ts) -/

/-- Mutable state of `AudioService`: whether an `AudioContext` was created,
`currentInstrumentName`, and the active player (`instrument`), identified by
an opaque tag. -/
structure AudioState where
  ctxOk : Bool
  currentInstrumentName : String
  instrument : Option Nat
deriving DecidableEq

/-- The synchronous prefix of `AudioService.loadInstrument`, up to its
`await`: early return when there is no audio context, or when `name` is
already the current instrument and a player is loaded; otherwise
`currentInstrumentName` is set to `name` and an asynchronous load begins,
capturing `loadingName = name`.  Returns the new state and the captured
`loadingName` of the started load, if any. -/
def requestLoad (s : AudioState) (name : String) : AudioState × Option String :=
  if s.ctxOk = false then (s, none)
  else if s.currentInstrumentName = name ∧ s.instrument.isSome then (s, none)
  else ({ s with currentInstrumentName := name }, some name)

/-- The continuation of `loadInstrument` after its `await` succeeds with a
new player: the player is installed only if `currentInstrumentName` still
equals the `loadingName` captured when the load started. -/
def completeLoad (s : AudioState) (loadingName : String) (player : Nat) : AudioState :=
  if s.currentInstrumentName = loadingName then { s with instrument := some player } else s

/-! ## Interaction engine (src/components/SkyStage.tsx) -/

/-- One fingertip slot of `fingerPositions` in `tick`. -/
structure Finger where
  x : ℚ
  y : ℚ
  visible : Bool
deriving DecidableEq

/-- Per-string physics record (`stringPhysics.current[id]`). -/
structure StringPhys where
  vibration : ℚ
  bend : ℚ
deriving DecidableEq

instance : Inhabited StringPhys := ⟨⟨0, 0⟩⟩

/-- A Pluck Event: the data `triggerString` receives for a fired string. -/
structure PluckEvent where
  stringId : Nat
  timeMs : ℚ
  fingerY : ℚ
deriving DecidableEq

instance : Inhabited PluckEvent := ⟨⟨0, 0, 0⟩⟩

/-- Lookup in a record keyed by string id (JS object property read). -/
def alookup {α : Type} (k : Nat) : List (Nat × α) → Option α
  | [] => none
  | kv :: rest => if k = kv.1 then some kv.2 else alookup k rest

/-- Update-or-insert in a record keyed by string id (JS object property
assignment). -/
def aset {α : Type} (k : Nat) (v : α) : List (Nat × α) → List (Nat × α)
  | [] => [(k, v)]
  | kv :: rest => if k = kv.1 then (k, v) :: rest else kv :: aset k v rest

/-- The engine-owned refs of `SkyStage` that persist across frames:
`lastLandmarksRef`, `stringPhysics`, `lastTriggerTimes`, `prevFingerX`,
`prevFingerVisible`. -/
structure EngineState where
  lastLandmarks : Option (List Hand)
  stringPhysics : List (Nat × StringPhys)
  lastTriggerTimes : List (Nat × ℚ)
  prevFingerX : List (Option ℚ)
  prevFingerVisible : List Bool
deriving DecidableEq

/-- The initial values of those refs. -/
def EngineState.start : EngineState :=
  { lastLandmarks := none
    stringPhysics := []
    lastTriggerTimes := []
    prevFingerX := [none, none]
    prevFingerVisible := [false, false] }

/-- Cache update at the top of `tick`: the cached landmark set is replaced
only when the adapter returned a result with at least one hand
(`if (results && results.landmarks.length > 0)`). -/
def updateCache (cache : Option (List Hand)) (results : Option DetectResult) :
    Option (List Hand) :=
  match results with
  | some r => if r.landmarks.length > 0 then some r.landmarks else cache
  | none => cache

/-- Fingertip slot `i` derived from the cached hands in `tick`: landmark 8
of hand `i`, x mirrored (`1.0 - tip.x`); an absent hand or tip yields the
sentinel `{x := -1, y := -1, visible := false}`. -/
def fingerSlot (hands : List Hand) (i : Nat) : Finger :=
  match hands[i]? with
  | some h =>
    match h.tip with
    | some t => { x := 1 - t.1, y := t.2, visible := true }
    | none => { x := -1, y := -1, visible := false }
  | none => { x := -1, y := -1, visible := false }

/-- Array `fingerPositions` of `tick`: two slots (hand indices 0 and 1) when the
cache holds at least one hand, and the empty list otherwise. -/
def fingerPositionsOf : Option (List Hand) → List Finger
  | some hands =>
    if hands.length > 0 then [fingerSlot hands 0, fingerSlot hands 1] else []
  | none => []

/-- Function `Math.abs` on exact rationals. -/
def qabs (x : ℚ) : ℚ := if x < 0 then -x else x

/-- Constant `reachThreshold` in `tick` (0.08 of normalized width). -/
def reachThreshold : ℚ := 8 / 100

/-- The linear falloff `pullFactor = 1.0 - |distToFingerX| / reachThreshold`. -/
def pullFactorOf (d : ℚ) : ℚ := 1 - qabs d / reachThreshold

/-- One step of the closest-bend scan in `tick`: an invisible finger is
skipped; a visible finger within reach, while the string's vibration is under
the 0.1 activity floor, proposes `distToFingerX * width * pullFactor * 0.8`,
kept when its magnitude beats the best candidate so far. -/
def bendFoldStep (xPos vib width : ℚ) (acc : ℚ) (f : Finger) : ℚ :=
  if f.visible then
    let d := f.x - xPos
    if qabs d < reachThreshold ∧ vib < 1 / 10 then
      let bend := d * width * pullFactorOf d * (8 / 10)
      if qabs bend > qabs acc then bend else acc
    else acc
  else acc

/-- Value `closestBend` of `tick`: fold of `bendFoldStep` over the fingers,
starting from 0. -/
def closestBendCalc (fingers : List Finger) (xPos vib width : ℚ) : ℚ :=
  fingers.foldl (bendFoldStep xPos vib width) 0

/-- The bend commit in `tick`: a nonzero candidate is stored, otherwise the
stored bend springs back (`bend *= 0.8`). -/
def updateBend (p : StringPhys) (cb : ℚ) : StringPhys :=
  if cb ≠ 0 then { p with bend := cb } else { p with bend := p.bend * (8 / 10) }

/-- Accumulator of the per-finger trigger loop for one string: the debounce
ledger, the string's physics record, and the events fired so far. -/
structure TrigAcc where
  ledger : List (Nat × ℚ)
  phys : StringPhys
  events : List PluckEvent
deriving DecidableEq

/-- The upper playable zone bound on finger y (`finger.y <= 0.67`). -/
def IN_STRING_AREA_Y : ℚ := 67 / 100

/-- Crossing/trigger check of one (fingerIndex, finger) pair against one
string in `tick`.  A visible finger whose slot was visible last frame
(`prevFingerVisible`), with a recorded previous x and y inside the playable
zone, fires when its x crossed the string's `xPos` since the previous frame
and the debounce ledger allows it (`now - lastTime > DEBOUNCE_MS`); firing
performs what `triggerString` plus the following `physics.bend = 0` do to
engine state: ledger entry set to `now`, vibration impulse 1.0, bend reset. -/
def trigStep (sid : Nat) (xPos now : ℚ) (prevX : List (Option ℚ))
    (prevVis : List Bool) (acc : TrigAcc) (fi : Nat × Finger) : TrigAcc :=
  if fi.2.visible then
    let isInStringArea := fi.2.y ≤ IN_STRING_AREA_Y
    let prevXi := (prevX[fi.1]?).getD none
    let wasVisible := (prevVis[fi.1]?).getD false
    match prevXi with
    | none => acc
    | some px =>
      if wasVisible ∧ isInStringArea then
        let crossedRight := px < xPos ∧ fi.2.x ≥ xPos
        let crossedLeft := px > xPos ∧ fi.2.x ≤ xPos
        if crossedRight ∨ crossedLeft then
          let lastTime := (alookup sid acc.ledger).getD 0
          if now - lastTime > DEBOUNCE_MS then
            { ledger := aset sid now acc.ledger
              phys := { vibration := 1, bend := 0 }
              events := acc.events ++ [{ stringId := sid, timeMs := now, fingerY := fi.2.y }] }
          else acc
        else acc
      else acc
  else acc

/-- State threaded through the per-string loop of `tick`: the physics map,
the debounce ledger, and the events fired so far this frame. -/
structure FrameAcc where
  physics : List (Nat × StringPhys)
  ledger : List (Nat × ℚ)
  events : List PluckEvent
deriving DecidableEq

/-- Processing of one string inside `tick`: lazy physics initialization,
the closest-bend update, then the per-finger crossing/trigger loop. -/
def processString (fingers : List Finger) (prevX : List (Option ℚ))
    (prevVis : List Bool) (now width : ℚ) (acc : FrameAcc) (cfg : StringConfig) :
    FrameAcc :=
  let p0 := (alookup cfg.id acc.physics).getD { vibration := 0, bend := 0 }
  let cb := closestBendCalc fingers cfg.xPos p0.vibration width
  let p1 := updateBend p0 cb
  let t := (fingers.enum).foldl (trigStep cfg.id cfg.xPos now prevX prevVis)
      { ledger := acc.ledger, phys := p1, events := acc.events }
  { physics := aset cfg.id t.phys acc.physics, ledger := t.ledger, events := t.events }

/-- The per-string pass of `tick` over all current strings. -/
def runStrings (strs : List StringConfig) (fingers : List Finger)
    (prevX : List (Option ℚ)) (prevVis : List Bool) (now width : ℚ)
    (acc : FrameAcc) : FrameAcc :=
  strs.foldl (processString fingers prevX prevVis now width) acc

/-- Previous-position commit at the end of `tick`: a visible slot stores its
x and is marked visible; an invisible slot is only marked invisible (its
recorded previous x is retained). -/
def updatePrev (fingers : List Finger) (prevX : List (Option ℚ))
    (prevVis : List Bool) : List (Option ℚ) × List Bool :=
  (fingers.enum).foldl
    (fun pr nf =>
      if nf.2.visible then (pr.1.set nf.1 (some nf.2.x), pr.2.set nf.1 true)
      else (pr.1, pr.2.set nf.1 false))
    (prevX, prevVis)

/-- The per-frame vibration damping in `renderStringsAndEffects`:
`vibration *= 0.92`, applied only while `vibration > 0.01`. -/
def vibDecay (v : ℚ) : ℚ := if v > 1 / 100 then v * (92 / 100) else v

/-- Vibration damping for one rendered string: applied to the stored record
when one exists; when the id has no record the damping acts on a temporary
default object and is lost, leaving the map unchanged. -/
def decayString (physics : List (Nat × StringPhys)) (cfg : StringConfig) :
    List (Nat × StringPhys) :=
  match alookup cfg.id physics with
  | some p => aset cfg.id { p with vibration := vibDecay p.vibration } physics
  | none => physics

/-- The damping pass of `renderStringsAndEffects` over all current strings. -/
def renderDecay (strs : List StringConfig) (physics : List (Nat × StringPhys)) :
    List (Nat × StringPhys) :=
  strs.foldl decayString physics

/-- One full frame of the interaction engine (`tick` with the camera active):
cache update from the adapter result, fingertip extraction, the per-string
bend/trigger pass, previous-position commit, and the vibration damping done
while rendering.  Returns the new engine state and the Pluck Events fired
this frame. -/
def tick (strs : List StringConfig) (now width : ℚ) (results : Option DetectResult)
    (s : EngineState) : EngineState × List PluckEvent :=
  let cache := updateCache s.lastLandmarks results
  let fingers := fingerPositionsOf cache
  let fr := runStrings strs fingers s.prevFingerX s.prevFingerVisible now width
      { physics := s.stringPhysics, ledger := s.lastTriggerTimes, events := [] }
  let pv := updatePrev fingers s.prevFingerX s.prevFingerVisible
  ({ lastLandmarks := cache
     stringPhysics := renderDecay strs fr.physics
     lastTriggerTimes := fr.ledger
     prevFingerX := pv.1
     prevFingerVisible := pv.2 }, fr.events)

/-- The frame tick together with its vision-acquisition call, when the
underlying detector may throw: `tick` invokes `visionService.detect` with no
try/catch anywhere on the path, so a detector error aborts the frame and is
returned to the frame tick's caller. -/
def tickE (strs : List StringConfig) (now width currentTime : ℚ)
    (ud : ℚ → Except String DetectResult) (vs : VisionState) (s : EngineState) :
    Except String (VisionState × EngineState × List PluckEvent) :=
  match VisionState.detectE vs ud currentTime with
  | (Except.error e, _) => Except.error e
  | (Except.ok r, vs2) => Except.ok (vs2, tick strs now width r s)

/-- Iterated frames: each entry is (time `performance.now()`, adapter
result); events are concatenated in frame order. -/
def runFrames (strs : List StringConfig) (width : ℚ)
    (frames : List (ℚ × Option DetectResult)) (s : EngineState) :
    EngineState × List PluckEvent :=
  frames.foldl
    (fun st fr =>
      let r := tick strs fr.1 width fr.2 st.1
      (r.1, st.2 ++ r.2))
    (s, [])

/-- Vibration after k rendered frames starting from a fresh pluck (1.0),
absent re-trigger: k iterations of the per-frame damping. -/
def vibAfter (k : Nat) : ℚ := vibDecay^[k] 1

/-- The exact condition under which `trigStep` can fire finger slot `fi`
against a string at `xPos` (debounce aside): the finger is visible, its slot
was visible on the previous frame with a recorded previous x, its y is inside
the playable zone, and its x crossed `xPos` between the frames. -/
def firesAt (fi : Nat × Finger) (prevX : List (Option ℚ)) (prevVis : List Bool)
    (xPos : ℚ) : Prop :=
  fi.2.visible = true ∧ (prevVis[fi.1]?).getD false = true ∧
    fi.2.y ≤ IN_STRING_AREA_Y ∧
    ∃ px, (prevX[fi.1]?).getD none = some px ∧
      ((px < xPos ∧ fi.2.x ≥ xPos) ∨ (px > xPos ∧ fi.2.x ≤ xPos))

/-- All vibrations recorded in a physics map lie in the interval [0, 1]. -/
def physInRange (m : List (Nat × StringPhys)) : Prop :=
  ∀ kv ∈ m, 0 ≤ kv.2.vibration ∧ kv.2.vibration ≤ 1

/-- Adapter result carrying one hand whose index fingertip sits at logical
stage position (x, y); the raw landmark is pre-mirrored so that `tick`
recovers x. -/
def oneHandAt (x y : ℚ) : Option DetectResult :=
  some { landmarks := [{ tip := some (1 - x, y) }] }

/-- Adapter result of a processed frame in which the detector found no
hands: a result object with an empty landmarks array. -/
def noHandsResult : Option DetectResult := some { landmarks := [] }

/-- Scenario for the no-hands claim: the engine state after one frame in
which a single hand is visible at x = 0.54, y = 0.3, over one string at
xPos = 0.5 (canvas width 1000). -/
def lostHandState1 : EngineState :=
  (tick (generateStringConfigs 1 PitchRange.mid) 1000 1000
    (oneHandAt (27 / 50) (3 / 10)) EngineState.start).1

/-- The frame after `lostHandState1` in which the detector reports no
hands. -/
def lostHandRun2 : EngineState × List PluckEvent :=
  tick (generateStringConfigs 1 PitchRange.mid) 1120 1000 noHandsResult lostHandState1

/-- A further no-hands frame after `lostHandRun2`. -/
def lostHandRun3 : EngineState × List PluckEvent :=
  tick (generateStringConfigs 1 PitchRange.mid) 1240 1000 noHandsResult lostHandRun2.1

/-- An engine state whose cached hand sits at x = 0.9, out of reach of the
single string at 0.5, with the finger's previous position recorded and a
leftover bend of 5 on the string. -/
def farHandState : EngineState :=
  { lastLandmarks := some [{ tip := some (1 - 9 / 10, 3 / 10) }]
    stringPhysics := [(0, { vibration := 0, bend := 5 })]
    lastTriggerTimes := []
    prevFingerX := [some (9 / 10), none]
    prevFingerVisible := [true, false] }

/-- The successive x positions of the sweep scenario: a finger starting at
0.05, stepping to the midpoints between consecutive strings of the
12-string layout ((2k+1)/26 for k = 1..11), and ending at 0.95, so that
each step crosses exactly one string's xPos (k/13). -/
def sweepXs : List ℚ :=
  [1 / 20, 3 / 26, 5 / 26, 7 / 26, 9 / 26, 11 / 26, 13 / 26,
   15 / 26, 17 / 26, 19 / 26, 21 / 26, 23 / 26, 19 / 20]

/-- Frames of the sweep scenario: frame k at time t0 + k * dt, with a single
hand whose index fingertip is at the k-th sweep position, y = 0.3. -/
def sweepFrames (t0 dt : ℚ) : List (ℚ × Option DetectResult) :=
  (sweepXs.enum).map fun nx => (t0 + (nx.1 : ℚ) * dt, oneHandAt nx.2 (3 / 10))

/-! ## Theorems -/

/-! ### Association-list record lemmas -/

theorem alookup_aset_self {α : Type} (k : Nat) (v : α) (m : List (Nat × α)) :
    alookup k (aset k v m) = some v := by
  induction m with
  | nil => simp [aset, alookup]
  | cons kv rest ih =>
    by_cases h : k = kv.1
    · simp [aset, h, alookup]
    · simp [aset, h, alookup, ih]

theorem alookup_aset_ne {α : Type} (k j : Nat) (v : α) (m : List (Nat × α)) (h : k ≠ j) :
    alookup k (aset j v m) = alookup k m := by
  induction m with
  | nil => simp [aset, alookup, h]
  | cons kv rest ih =>
    obtain ⟨k2, v2⟩ := kv
    by_cases h2 : j = k2
    · subst h2
      simp [aset, alookup, h, ih]
    · simp only [aset, h2, if_false]
      by_cases h3 : k = k2
      · simp [alookup, h3]
      · simp [alookup, h3, ih]

theorem mem_aset {α : Type} (k : Nat) (v : α) (m : List (Nat × α)) :
    ∀ kv ∈ aset k v m, kv = (k, v) ∨ kv ∈ m := by
  induction m with
  | nil =>
    intro kv h
    simp [aset] at h
    left
    simp [h]
  | cons hd rest ih =>
    intro kv h
    by_cases h2 : k = hd.1
    · simp only [aset, h2, if_true, List.mem_cons] at h
      rcases h with h | h
      · left; simp [h, ← h2]
      · right; simp [h]
    · simp only [aset, h2, if_false, List.mem_cons] at h
      rcases h with h | h
      · right; simp [h]
      · rcases ih kv h with h3 | h3
        · left; exact h3
        · right; simp [h3]

theorem alookup_mem {α : Type} (k : Nat) (m : List (Nat × α)) (v : α)
    (h : alookup k m = some v) : (k, v) ∈ m := by
  induction m with
  | nil => simp [alookup] at h
  | cons hd rest ih =>
    by_cases h2 : k = hd.1
    · simp only [alookup, h2, if_true, Option.some.injEq] at h
      subst h
      simp only [List.mem_cons]
      left
      rw [h2]
    · simp only [alookup, h2, if_false] at h
      simp [ih h]

/-! ### Characterization of the per-finger trigger step -/

theorem trigStep_total (sid : Nat) (xPos now : ℚ) (pX : List (Option ℚ)) (pV : List Bool)
    (acc : TrigAcc) (fi : Nat × Finger) :
    trigStep sid xPos now pX pV acc fi = acc ∨
      (now - (alookup sid acc.ledger).getD 0 > DEBOUNCE_MS ∧ firesAt fi pX pV xPos ∧
        trigStep sid xPos now pX pV acc fi =
          { ledger := aset sid now acc.ledger, phys := { vibration := 1, bend := 0 },
            events := acc.events ++ [{ stringId := sid, timeMs := now, fingerY := fi.2.y }] }) := by
  unfold trigStep
  split
  case isFalse => left; rfl
  case isTrue hv =>
    dsimp only
    split
    case h_1 => left; rfl
    case h_2 px hpx =>
      split
      case isFalse => left; rfl
      case isTrue hw =>
        split
        case isFalse => left; rfl
        case isTrue hcross =>
          split
          case isFalse => left; rfl
          case isTrue hgap =>
            right
            exact ⟨hgap, ⟨hv, hw.1, hw.2, px, hpx, hcross⟩, rfl⟩

theorem trigStep_fire (sid : Nat) (xPos now : ℚ) (pX : List (Option ℚ)) (pV : List Bool)
    (acc : TrigAcc) (fi : Nat × Finger) (hf : firesAt fi pX pV xPos)
    (hgap : now - (alookup sid acc.ledger).getD 0 > DEBOUNCE_MS) :
    trigStep sid xPos now pX pV acc fi =
      { ledger := aset sid now acc.ledger, phys := { vibration := 1, bend := 0 },
        events := acc.events ++ [{ stringId := sid, timeMs := now, fingerY := fi.2.y }] } := by
  obtain ⟨hv, hw, hy, px, hpx, hcross⟩ := hf
  unfold trigStep
  rw [if_pos hv]
  dsimp only
  rw [hpx]
  dsimp only
  rw [if_pos ⟨hw, hy⟩, if_pos hcross, if_pos hgap]

theorem trigStep_skip (sid : Nat) (xPos now : ℚ) (pX : List (Option ℚ)) (pV : List Bool)
    (acc : TrigAcc) (fi : Nat × Finger) (hf : ¬ firesAt fi pX pV xPos) :
    trigStep sid xPos now pX pV acc fi = acc := by
  rcases trigStep_total sid xPos now pX pV acc fi with h | ⟨_, hfa, _⟩
  · exact h
  · exact absurd hfa hf

theorem trigStep_blocked (sid : Nat) (xPos now : ℚ) (pX : List (Option ℚ)) (pV : List Bool)
    (acc : TrigAcc) (fi : Nat × Finger)
    (hgap : now - (alookup sid acc.ledger).getD 0 ≤ DEBOUNCE_MS) :
    trigStep sid xPos now pX pV acc fi = acc := by
  rcases trigStep_total sid xPos now pX pV acc fi with h | ⟨hgap2, _, _⟩
  · exact h
  · exact absurd hgap2 (not_lt.mpr hgap)

/-! ### The per-string trigger fold -/

theorem trigFold_blocked (sid : Nat) (xPos now : ℚ) (pX : List (Option ℚ)) (pV : List Bool)
    (l : List (Nat × Finger)) (acc : TrigAcc)
    (hgap : now - (alookup sid acc.ledger).getD 0 ≤ DEBOUNCE_MS) :
    l.foldl (trigStep sid xPos now pX pV) acc = acc := by
  induction l with
  | nil => rfl
  | cons a l ih =>
    rw [List.foldl_cons, trigStep_blocked _ _ _ _ _ _ _ hgap]
    exact ih

theorem trigFold_dichotomy (sid : Nat) (xPos now : ℚ) (pX : List (Option ℚ)) (pV : List Bool)
    (l : List (Nat × Finger)) (acc : TrigAcc) :
    l.foldl (trigStep sid xPos now pX pV) acc = acc ∨
      ∃ y, l.foldl (trigStep sid xPos now pX pV) acc =
        { ledger := aset sid now acc.ledger, phys := { vibration := 1, bend := 0 },
          events := acc.events ++ [{ stringId := sid, timeMs := now, fingerY := y }] } := by
  induction l generalizing acc with
  | nil => left; rfl
  | cons a l ih =>
    rw [List.foldl_cons]
    rcases trigStep_total sid xPos now pX pV acc a with h | ⟨_, _, h⟩
    · rw [h]
      exact ih acc
    · rw [h]
      right
      refine ⟨a.2.y, ?_⟩
      apply trigFold_blocked
      simp [alookup_aset_self, DEBOUNCE_MS]

theorem trigFold_fires (sid : Nat) (xPos now : ℚ) (pX : List (Option ℚ)) (pV : List Bool)
    (l : List (Nat × Finger)) (acc : TrigAcc)
    (hgap : now - (alookup sid acc.ledger).getD 0 > DEBOUNCE_MS)
    (hex : ∃ fi ∈ l, firesAt fi pX pV xPos) :
    ∃ y, l.foldl (trigStep sid xPos now pX pV) acc =
      { ledger := aset sid now acc.ledger, phys := { vibration := 1, bend := 0 },
        events := acc.events ++ [{ stringId := sid, timeMs := now, fingerY := y }] } := by
  induction l with
  | nil =>
    obtain ⟨fi, h, _⟩ := hex
    cases h
  | cons a l ih =>
    rw [List.foldl_cons]
    by_cases hfa : firesAt a pX pV xPos
    · rw [trigStep_fire _ _ _ _ _ _ _ hfa hgap]
      refine ⟨a.2.y, ?_⟩
      apply trigFold_blocked
      simp [alookup_aset_self, DEBOUNCE_MS]
    · rw [trigStep_skip _ _ _ _ _ _ _ hfa]
      apply ih
      obtain ⟨fi, hm, hf⟩ := hex
      rcases List.mem_cons.mp hm with h | hm2
      · exact absurd (h ▸ hf) hfa
      · exact ⟨fi, hm2, hf⟩

/-! ### Per-string processing -/

theorem processString_cases (fingers : List Finger) (pX : List (Option ℚ)) (pV : List Bool)
    (now width : ℚ) (acc : FrameAcc) (cfg : StringConfig) :
    (processString fingers pX pV now width acc cfg =
      { physics := aset cfg.id
          (updateBend ((alookup cfg.id acc.physics).getD { vibration := 0, bend := 0 })
            (closestBendCalc fingers cfg.xPos
              ((alookup cfg.id acc.physics).getD { vibration := 0, bend := 0 }).vibration width))
          acc.physics,
        ledger := acc.ledger, events := acc.events }) ∨
    (∃ y, processString fingers pX pV now width acc cfg =
      { physics := aset cfg.id { vibration := 1, bend := 0 } acc.physics,
        ledger := aset cfg.id now acc.ledger,
        events := acc.events ++ [{ stringId := cfg.id, timeMs := now, fingerY := y }] }) := by
  unfold processString
  dsimp only
  rcases trigFold_dichotomy cfg.id cfg.xPos now pX pV fingers.enum
      { ledger := acc.ledger,
        phys := updateBend ((alookup cfg.id acc.physics).getD { vibration := 0, bend := 0 })
          (closestBendCalc fingers cfg.xPos
            ((alookup cfg.id acc.physics).getD { vibration := 0, bend := 0 }).vibration width),
        events := acc.events } with h | ⟨y, h⟩
  · left
    rw [h]
  · right
    exact ⟨y, by rw [h]⟩

theorem processString_blocked (fingers : List Finger) (pX : List (Option ℚ)) (pV : List Bool)
    (now width : ℚ) (acc : FrameAcc) (cfg : StringConfig)
    (hgap : now - (alookup cfg.id acc.ledger).getD 0 ≤ DEBOUNCE_MS) :
    processString fingers pX pV now width acc cfg =
      { physics := aset cfg.id
          (updateBend ((alookup cfg.id acc.physics).getD { vibration := 0, bend := 0 })
            (closestBendCalc fingers cfg.xPos
              ((alookup cfg.id acc.physics).getD { vibration := 0, bend := 0 }).vibration width))
          acc.physics,
        ledger := acc.ledger, events := acc.events } := by
  unfold processString
  dsimp only
  rw [trigFold_blocked _ _ _ _ _ _ _ hgap]

theorem processString_fires (fingers : List Finger) (pX : List (Option ℚ)) (pV : List Bool)
    (now width : ℚ) (acc : FrameAcc) (cfg : StringConfig)
    (hgap : now - (alookup cfg.id acc.ledger).getD 0 > DEBOUNCE_MS)
    (hex : ∃ fi ∈ fingers.enum, firesAt fi pX pV cfg.xPos) :
    ∃ y, processString fingers pX pV now width acc cfg =
      { physics := aset cfg.id { vibration := 1, bend := 0 } acc.physics,
        ledger := aset cfg.id now acc.ledger,
        events := acc.events ++ [{ stringId := cfg.id, timeMs := now, fingerY := y }] } := by
  unfold processString
  dsimp only
  obtain ⟨y, h⟩ := trigFold_fires cfg.id cfg.xPos now pX pV fingers.enum
      { ledger := acc.ledger,
        phys := updateBend ((alookup cfg.id acc.physics).getD { vibration := 0, bend := 0 })
          (closestBendCalc fingers cfg.xPos
            ((alookup cfg.id acc.physics).getD { vibration := 0, bend := 0 }).vibration width),
        events := acc.events } hgap hex
  exact ⟨y, by rw [h]⟩

theorem processString_alookup_ne (fingers : List Finger) (pX : List (Option ℚ)) (pV : List Bool)
    (now width : ℚ) (acc : FrameAcc) (cfg : StringConfig) (j : Nat) (hj : j ≠ cfg.id) :
    alookup j (processString fingers pX pV now width acc cfg).physics = alookup j acc.physics ∧
    alookup j (processString fingers pX pV now width acc cfg).ledger = alookup j acc.ledger := by
  rcases processString_cases fingers pX pV now width acc cfg with h | ⟨y, h⟩ <;> rw [h]
  · exact ⟨alookup_aset_ne j cfg.id _ _ hj, rfl⟩
  · exact ⟨alookup_aset_ne j cfg.id _ _ hj, alookup_aset_ne j cfg.id _ _ hj⟩

theorem processString_events_filter_ne (fingers : List Finger) (pX : List (Option ℚ))
    (pV : List Bool) (now width : ℚ) (acc : FrameAcc) (cfg : StringConfig) (sid : Nat)
    (hne : cfg.id ≠ sid) :
    ((processString fingers pX pV now width acc cfg).events).filter
        (fun e => e.stringId == sid) =
      acc.events.filter (fun e => e.stringId == sid) := by
  rcases processString_cases fingers pX pV now width acc cfg with h | ⟨y, h⟩ <;> rw [h]
  simp [List.filter_append, hne]

/-! ### The per-frame pass over all strings -/

theorem runStrings_preserve (strs : List StringConfig) (fingers : List Finger)
    (pX : List (Option ℚ)) (pV : List Bool) (now width : ℚ) (acc : FrameAcc) (sid : Nat)
    (h : ∀ cfg ∈ strs, cfg.id ≠ sid) :
    (runStrings strs fingers pX pV now width acc).events.filter (fun e => e.stringId == sid)
        = acc.events.filter (fun e => e.stringId == sid) ∧
    alookup sid (runStrings strs fingers pX pV now width acc).ledger = alookup sid acc.ledger ∧
    alookup sid (runStrings strs fingers pX pV now width acc).physics
        = alookup sid acc.physics := by
  induction strs generalizing acc with
  | nil => exact ⟨rfl, rfl, rfl⟩
  | cons c strs ih =>
    have hc : c.id ≠ sid := h c (List.mem_cons_self c strs)
    have hrest : ∀ cfg ∈ strs, cfg.id ≠ sid := fun cfg hm => h cfg (List.mem_cons_of_mem c hm)
    unfold runStrings
    rw [List.foldl_cons]
    obtain ⟨h1, h2, h3⟩ := ih (processString fingers pX pV now width acc c) hrest
    obtain ⟨h4, h5⟩ := processString_alookup_ne fingers pX pV now width acc c sid (Ne.symm hc)
    refine ⟨?_, ?_, ?_⟩
    · rw [show (runStrings strs fingers pX pV now width
          (processString fingers pX pV now width acc c)) =
          List.foldl (processString fingers pX pV now width)
            (processString fingers pX pV now width acc c) strs from rfl] at h1
      rw [h1, processString_events_filter_ne fingers pX pV now width acc c sid hc]
    · rw [show (runStrings strs fingers pX pV now width
          (processString fingers pX pV now width acc c)) =
          List.foldl (processString fingers pX pV now width)
            (processString fingers pX pV now width acc c) strs from rfl] at h2
      rw [h2, h5]
    · rw [show (runStrings strs fingers pX pV now width
          (processString fingers pX pV now width acc c)) =
          List.foldl (processString fingers pX pV now width)
            (processString fingers pX pV now width acc c) strs from rfl] at h3
      rw [h3, h4]

/-- Decomposition of the generated layout around the string with id `sid`. -/
theorem gsc_split (N : Nat) (range : PitchRange) (sid : Nat) (h : sid < N) :
    ∃ A B c, generateStringConfigs N range = A ++ c :: B ∧
      (∀ cfg ∈ A, cfg.id ≠ sid) ∧ (∀ cfg ∈ B, cfg.id ≠ sid) ∧
      c.id = sid ∧ c.xPos = ((sid : ℚ) + 1) / ((N : ℚ) + 1) := by
  have hN : sid + 1 + (N - (sid + 1)) = N := by omega
  have h1 : List.range N
      = List.range (sid + 1) ++ (List.range (N - (sid + 1))).map (sid + 1 + ·) := by
    conv_lhs => rw [← hN]
    exact List.range_add (sid + 1) (N - (sid + 1))
  have h2 : List.range (sid + 1) = List.range sid ++ [sid] := by
    simpa using List.range_succ sid
  refine ⟨(List.range sid).map (fun i =>
      { id := i
        note := C_MAJOR_SCALE.getD (i % C_MAJOR_SCALE.length) "C"
                  ++ toString (octaveStart range + i / C_MAJOR_SCALE.length)
        color := STRING_COLORS.getD (i % STRING_COLORS.length) ""
        xPos := ((i : ℚ) + 1) / ((N : ℚ) + 1) }),
    ((List.range (N - (sid + 1))).map (sid + 1 + ·)).map (fun i =>
      { id := i
        note := C_MAJOR_SCALE.getD (i % C_MAJOR_SCALE.length) "C"
                  ++ toString (octaveStart range + i / C_MAJOR_SCALE.length)
        color := STRING_COLORS.getD (i % STRING_COLORS.length) ""
        xPos := ((i : ℚ) + 1) / ((N : ℚ) + 1) }),
    { id := sid
      note := C_MAJOR_SCALE.getD (sid % C_MAJOR_SCALE.length) "C"
                ++ toString (octaveStart range + sid / C_MAJOR_SCALE.length)
      color := STRING_COLORS.getD (sid % STRING_COLORS.length) ""
      xPos := ((sid : ℚ) + 1) / ((N : ℚ) + 1) }, ?_, ?_, ?_, rfl, rfl⟩
  · rw [generateStringConfigs, h1, h2]
    simp [List.map_append]
  · intro cfg hm
    simp only [List.mem_map, List.mem_range] at hm
    obtain ⟨i, hi, rfl⟩ := hm
    simp only []
    omega
  · intro cfg hm
    simp only [List.mem_map, List.mem_range] at hm
    obtain ⟨i, hi, rfl⟩ := hm
    simp only []
    omega

theorem processString_blockedE (fingers : List Finger) (pX : List (Option ℚ)) (pV : List Bool)
    (now width : ℚ) (acc : FrameAcc) (cfg : StringConfig)
    (hgap : now - (alookup cfg.id acc.ledger).getD 0 ≤ DEBOUNCE_MS) :
    ∃ P, processString fingers pX pV now width acc cfg =
      { physics := P, ledger := acc.ledger, events := acc.events } :=
  ⟨_, processString_blocked fingers pX pV now width acc cfg hgap⟩

theorem processString_firesE (fingers : List Finger) (pX : List (Option ℚ)) (pV : List Bool)
    (now width : ℚ) (acc : FrameAcc) (cfg : StringConfig)
    (hgap : now - (alookup cfg.id acc.ledger).getD 0 > DEBOUNCE_MS)
    (hex : ∃ fi ∈ fingers.enum, firesAt fi pX pV cfg.xPos) :
    ∃ P y, processString fingers pX pV now width acc cfg =
      { physics := P, ledger := aset cfg.id now acc.ledger,
        events := acc.events ++ [{ stringId := cfg.id, timeMs := now, fingerY := y }] } := by
  obtain ⟨y, h⟩ := processString_fires fingers pX pV now width acc cfg hgap hex
  exact ⟨_, y, h⟩

theorem processString_casesE (fingers : List Finger) (pX : List (Option ℚ)) (pV : List Bool)
    (now width : ℚ) (acc : FrameAcc) (cfg : StringConfig) :
    (∃ P, processString fingers pX pV now width acc cfg =
      { physics := P, ledger := acc.ledger, events := acc.events }) ∨
    (∃ P y, processString fingers pX pV now width acc cfg =
      { physics := P, ledger := aset cfg.id now acc.ledger,
        events := acc.events ++ [{ stringId := cfg.id, timeMs := now, fingerY := y }] }) := by
  rcases processString_cases fingers pX pV now width acc cfg with h | ⟨y, h⟩
  · exact Or.inl ⟨_, h⟩
  · exact Or.inr ⟨_, y, h⟩

/-- Behaviour of the per-frame string pass, for the events of one string
`sid`, when the layout splits as `A ++ c :: B` with `c` the unique string
carrying id `sid`. -/
theorem runStrings_split_filter (A B : List StringConfig) (c : StringConfig)
    (fingers : List Finger) (pX : List (Option ℚ)) (pV : List Bool) (now width : ℚ)
    (acc : FrameAcc) (sid : Nat)
    (hA : ∀ cfg ∈ A, cfg.id ≠ sid) (hB : ∀ cfg ∈ B, cfg.id ≠ sid) (hcid : c.id = sid) :
    (now - (alookup sid acc.ledger).getD 0 ≤ DEBOUNCE_MS →
      (runStrings (A ++ c :: B) fingers pX pV now width acc).events.filter
          (fun e => e.stringId == sid)
        = acc.events.filter (fun e => e.stringId == sid)) ∧
    ((runStrings (A ++ c :: B) fingers pX pV now width acc).events.filter
        (fun e => e.stringId == sid)).length
      ≤ (acc.events.filter (fun e => e.stringId == sid)).length + 1 ∧
    (now - (alookup sid acc.ledger).getD 0 > DEBOUNCE_MS →
      (∃ fi ∈ fingers.enum, firesAt fi pX pV c.xPos) →
      ∃ y, (runStrings (A ++ c :: B) fingers pX pV now width acc).events.filter
          (fun e => e.stringId == sid)
        = acc.events.filter (fun e => e.stringId == sid)
            ++ [{ stringId := sid, timeMs := now, fingerY := y }]) := by
  have hsplitrun : runStrings (A ++ c :: B) fingers pX pV now width acc
      = runStrings B fingers pX pV now width
          (processString fingers pX pV now width
            (runStrings A fingers pX pV now width acc) c) := by
    unfold runStrings
    rw [List.foldl_append, List.foldl_cons]
  obtain ⟨hA1, hA2, hA3⟩ := runStrings_preserve A fingers pX pV now width acc sid hA
  refine ⟨?_, ?_, ?_⟩
  · intro hgap
    have hgapA : now - (alookup c.id
        (runStrings A fingers pX pV now width acc).ledger).getD 0 ≤ DEBOUNCE_MS := by
      rw [hcid, hA2]
      exact hgap
    obtain ⟨P, hP⟩ := processString_blockedE fingers pX pV now width
      (runStrings A fingers pX pV now width acc) c hgapA
    rw [hsplitrun, hP]
    have hBf := (runStrings_preserve B fingers pX pV now width
      { physics := P, ledger := (runStrings A fingers pX pV now width acc).ledger,
        events := (runStrings A fingers pX pV now width acc).events } sid hB).1
    rw [hBf]
    exact hA1
  · rw [hsplitrun]
    rcases processString_casesE fingers pX pV now width
        (runStrings A fingers pX pV now width acc) c with ⟨P, hP⟩ | ⟨P, y, hP⟩ <;> rw [hP]
    · have hBf := (runStrings_preserve B fingers pX pV now width
        { physics := P, ledger := (runStrings A fingers pX pV now width acc).ledger,
          events := (runStrings A fingers pX pV now width acc).events } sid hB).1
      rw [hBf]
      dsimp only
      rw [hA1]
      omega
    · have hBf := (runStrings_preserve B fingers pX pV now width
        { physics := P, ledger := aset c.id now (runStrings A fingers pX pV now width acc).ledger,
          events := (runStrings A fingers pX pV now width acc).events
            ++ [{ stringId := c.id, timeMs := now, fingerY := y }] } sid hB).1
      rw [hBf]
      dsimp only
      rw [List.filter_append, hA1]
      rw [List.length_append]
      have : (List.filter (fun e => e.stringId == sid)
          [({ stringId := c.id, timeMs := now, fingerY := y } : PluckEvent)]).length ≤ 1 :=
        List.length_filter_le _ _
      omega
  · intro hgap hex
    have hgapA : now - (alookup c.id
        (runStrings A fingers pX pV now width acc).ledger).getD 0 > DEBOUNCE_MS := by
      rw [hcid, hA2]
      exact hgap
    obtain ⟨P, y, hP⟩ := processString_firesE fingers pX pV now width
      (runStrings A fingers pX pV now width acc) c hgapA hex
    rw [hsplitrun, hP]
    refine ⟨y, ?_⟩
    have hBf := (runStrings_preserve B fingers pX pV now width
      { physics := P, ledger := aset c.id now (runStrings A fingers pX pV now width acc).ledger,
        events := (runStrings A fingers pX pV now width acc).events
          ++ [{ stringId := c.id, timeMs := now, fingerY := y }] } sid hB).1
    rw [hBf]
    dsimp only
    rw [List.filter_append, hA1, hcid]
    simp

/-- C1: for every string sid of the layout and every frame, if the time since
sid's last trigger is within DEBOUNCE_MS then the frame fires no Pluck Event
for sid regardless of which tracked finger crosses it; at most one Pluck
Event fires for sid per frame even when both hands cross it at the same
instant (the debounce ledger is per string, shared across fingers); and a
valid crossing outside the debounce window fires exactly one event for sid. -/
theorem claim1_debounce (N : Nat) (range : PitchRange) (now width : ℚ)
    (results : Option DetectResult) (s : EngineState) (sid : Nat) (hsid : sid < N) :
    (now - (alookup sid s.lastTriggerTimes).getD 0 ≤ DEBOUNCE_MS →
        ((tick (generateStringConfigs N range) now width results s).2).filter
          (fun e => e.stringId == sid) = []) ∧
    (((tick (generateStringConfigs N range) now width results s).2).filter
        (fun e => e.stringId == sid)).length ≤ 1 ∧
    (now - (alookup sid s.lastTriggerTimes).getD 0 > DEBOUNCE_MS →
      (∃ fi ∈ (fingerPositionsOf (updateCache s.lastLandmarks results)).enum,
          firesAt fi s.prevFingerX s.prevFingerVisible (((sid : ℚ) + 1) / ((N : ℚ) + 1))) →
      ∃ y, ((tick (generateStringConfigs N range) now width results s).2).filter
          (fun e => e.stringId == sid)
        = [{ stringId := sid, timeMs := now, fingerY := y }]) := by
  obtain ⟨A, B, c, hsplit, hA, hB, hcid, hcx⟩ := gsc_split N range sid hsid
  have htick : (tick (generateStringConfigs N range) now width results s).2 =
      (runStrings (generateStringConfigs N range)
        (fingerPositionsOf (updateCache s.lastLandmarks results))
        s.prevFingerX s.prevFingerVisible now width
        { physics := s.stringPhysics, ledger := s.lastTriggerTimes, events := [] }).events := rfl
  obtain ⟨k1, k2, k3⟩ := runStrings_split_filter A B c
    (fingerPositionsOf (updateCache s.lastLandmarks results))
    s.prevFingerX s.prevFingerVisible now width
    { physics := s.stringPhysics, ledger := s.lastTriggerTimes, events := [] } sid hA hB hcid
  refine ⟨?_, ?_, ?_⟩
  · intro hgap
    rw [htick, hsplit]
    exact k1 hgap
  · rw [htick, hsplit]
    simpa using k2
  · intro hgap hex
    rw [htick, hsplit]
    have hex2 : ∃ fi ∈ (fingerPositionsOf (updateCache s.lastLandmarks results)).enum,
        firesAt fi s.prevFingerX s.prevFingerVisible c.xPos := by
      rw [hcx]
      exact hex
    obtain ⟨y, hy⟩ := k3 hgap hex2
    exact ⟨y, by simpa using hy⟩

theorem claim1_debounce_witness :
    (((tick (generateStringConfigs 2 PitchRange.mid) 1000 1000 none
        EngineState.start).2).filter (fun e => e.stringId == 0)).length ≤ 1 :=
  (claim1_debounce 2 PitchRange.mid 1000 1000 none EngineState.start 0 (by norm_num)).2.1

/-! ### Vibration decay and bend eligibility -/

theorem foldl_fixed {α β : Type} (f : β → α → β) (l : List α) (b : β)
    (h : ∀ x ∈ l, ∀ a, f a x = a) : l.foldl f b = b := by
  induction l with
  | nil => rfl
  | cons x l ih =>
    rw [List.foldl_cons, h x (List.mem_cons_self x l)]
    exact ih fun y hy a => h y (List.mem_cons_of_mem x hy) a

theorem qabs_nonneg (x : ℚ) : 0 ≤ qabs x := by
  unfold qabs
  split <;> linarith

theorem vibAfter_succ (k : Nat) : vibAfter (k + 1) = vibDecay (vibAfter k) :=
  Function.iterate_succ_apply' vibDecay k 1

theorem vibAfter_pow (k : Nat) (hk : k ≤ 56) : vibAfter k = (92 / 100) ^ k := by
  induction k with
  | zero => rfl
  | succ n ih =>
    have h1 := ih (by omega)
    have h2 : ((92 : ℚ) / 100) ^ n > 1 / 100 := by
      have hmono : ((92 : ℚ) / 100) ^ 55 ≤ ((92 : ℚ) / 100) ^ n :=
        pow_le_pow_of_le_one (by norm_num) (by norm_num) (by omega)
      have hbig : ((1 : ℚ) / 100) < ((92 : ℚ) / 100) ^ 55 := by norm_num
      linarith
    rw [vibAfter_succ, h1]
    unfold vibDecay
    rw [if_pos h2, pow_succ]

theorem vibAfter_stable (k : Nat) (hk : 56 ≤ k) : vibAfter k = (92 / 100) ^ 56 := by
  induction k with
  | zero => omega
  | succ n ih =>
    rcases Nat.lt_or_ge n 56 with h | h
    · have h56 : n + 1 = 56 := by omega
      rw [h56]
      exact vibAfter_pow 56 le_rfl
    · rw [vibAfter_succ, ih h]
      unfold vibDecay
      rw [if_neg (by norm_num)]

theorem closestBend_highVib (fingers : List Finger) (xPos vib width : ℚ)
    (h : 1 / 10 ≤ vib) : closestBendCalc fingers xPos vib width = 0 := by
  unfold closestBendCalc
  apply foldl_fixed
  intro f _ acc
  unfold bendFoldStep
  split
  case isFalse => rfl
  case isTrue hv =>
    dsimp only
    have hne : ¬ (qabs (f.x - xPos) < reachThreshold ∧ vib < 1 / 10) :=
      fun hc => absurd hc.2 (not_lt.mpr h)
    rw [if_neg hne]

/-- C3 (amended): a freshly plucked string's vibration equals 0.92 to the k
after k rendered frames for k up to 56; from frame 56 on the value stays at
0.92 to the 56 (about 0.0094, at or below the 0.01 decay floor, so damping
stops); a string whose vibration is at least the 0.1 activity floor takes no
bend influence, while below 0.1 a nearby finger bends it again — the
bend-eligibility threshold is 0.1, not 0.01. -/
theorem claim3_vibration_decay (k : Nat) (hk : k ≤ 56) :
    vibAfter k = (92 / 100) ^ k ∧
    (∀ j, 56 ≤ j → vibAfter j = (92 / 100) ^ 56) ∧
    (∀ fingers xPos vib width, 1 / 10 ≤ vib → closestBendCalc fingers xPos vib width = 0) ∧
    (∀ vib : ℚ, vib < 1 / 10 →
      closestBendCalc [{ x := 27 / 50, y := 3 / 10, visible := true }] (1 / 2) vib 1000 = 16) := by
  refine ⟨vibAfter_pow k hk, vibAfter_stable, closestBend_highVib, ?_⟩
  intro vib hv
  norm_num [closestBendCalc, bendFoldStep, pullFactorOf, qabs, reachThreshold, hv, List.foldl]

theorem claim3_vibration_decay_witness :
    vibAfter 3 = (92 / 100) ^ 3 :=
  (claim3_vibration_decay 3 (by norm_num)).1

/-- C3 is false as stated: after 200 rendered frames the vibration equals
0.92 to the 56 (decay stops at the 0.01 floor), not 0.92 to the 200 — the
gap exceeds 1/200, far beyond floating tolerance; and a string with
vibration 0.05, which is above 0.01, is already bend-eligible (a nearby
finger sets a nonzero bend), so bend-eligibility does not switch at 0.01. -/
theorem claim3_counterexample :
    vibAfter 200 - (92 / 100) ^ 200 > 1 / 200 ∧
    (1 : ℚ) / 100 < 1 / 20 ∧
    closestBendCalc [{ x := 27 / 50, y := 3 / 10, visible := true }] (1 / 2) (1 / 20) 1000
      = 16 := by
  refine ⟨?_, by norm_num, ?_⟩
  · rw [vibAfter_stable 200 (by norm_num)]
    norm_num
  · norm_num [closestBendCalc, bendFoldStep, pullFactorOf, qabs, reachThreshold, List.foldl]

/-- C4 is false as stated: with the string at xPos 0.5, vibration 0 (below
the activity floor) and width 1000, a visible finger exactly at 0.5
(horizontal distance 0) yields bend 0 for the string, while a finger at 0.54
yields magnitude 16 — so distance 0 does not produce the maximum achievable
bend magnitude. -/
theorem claim4_counterexample :
    closestBendCalc [{ x := 1 / 2, y := 3 / 10, visible := true }] (1 / 2) 0 1000 = 0 ∧
    closestBendCalc [{ x := 27 / 50, y := 3 / 10, visible := true }] (1 / 2) 0 1000 = 16 := by
  constructor <;>
    norm_num [closestBendCalc, bendFoldStep, pullFactorOf, qabs, reachThreshold, List.foldl]

/-- C4 (amended): at horizontal distance 0 the pull factor is maximal
(pullFactor = 1) but the bend candidate distToFingerX * width * pullFactor *
0.8 is 0, so such a finger contributes nothing to the bend scan; and a
finger at distance at least reachThreshold (0.08) contributes nothing
either. -/
theorem claim4_bend_falloff :
    pullFactorOf 0 = 1 ∧
    (∀ (xPos vib width acc : ℚ) (f : Finger), f.x = xPos →
      bendFoldStep xPos vib width acc f = acc) ∧
    (∀ (xPos vib width acc : ℚ) (f : Finger), reachThreshold ≤ qabs (f.x - xPos) →
      bendFoldStep xPos vib width acc f = acc) := by
  refine ⟨by norm_num [pullFactorOf, qabs, reachThreshold], ?_, ?_⟩
  · intro xPos vib width acc f hx
    unfold bendFoldStep
    split
    case isFalse => rfl
    case isTrue hv =>
      dsimp only
      rw [hx, sub_self]
      split
      case isFalse => rfl
      case isTrue hc =>
        have h1 : qabs (0 * width * pullFactorOf 0 * (8 / 10)) = 0 := by
          norm_num [qabs]
        have hne : ¬ qabs (0 * width * pullFactorOf 0 * (8 / 10)) > qabs acc := by
          rw [h1]
          exact not_lt.mpr (qabs_nonneg acc)
        rw [if_neg hne]
  · intro xPos vib width acc f hfar
    unfold bendFoldStep
    split
    case isFalse => rfl
    case isTrue hv =>
      dsimp only
      have hne : ¬ (qabs (f.x - xPos) < reachThreshold ∧ vib < 1 / 10) :=
        fun hc => absurd hc.1 (not_lt.mpr hfar)
      rw [if_neg hne]

theorem claim4_bend_falloff_witness :
    bendFoldStep (1 / 2) 0 1000 5 { x := 1 / 2, y := 3 / 10, visible := true } = 5 :=
  claim4_bend_falloff.2.1 (1 / 2) 0 1000 5 { x := 1 / 2, y := 3 / 10, visible := true } rfl

/-! ### Hand-tracking adapter dedup and failure -/

/-- C7: with the detector created, a detect call whose frame identity equals
the identity recorded by the previous processed call returns none without
invoking the underlying detector; a call with a different identity invokes
the detector and returns its result. -/
theorem claim7_detect_dedup (vs : VisionState) (ud : ℚ → DetectResult) (t0 t1 : ℚ)
    (hinit : vs.handLandmarker = true) (hprev : vs.lastVideoTime = t0) :
    (t1 = t0 → vs.detect ud t1 = (none, vs, false)) ∧
    (t1 ≠ t0 → vs.detect ud t1 = (some (ud t1), { vs with lastVideoTime := t1 }, true)) := by
  constructor <;> intro h <;>
    simp [VisionState.detect, hinit, hprev, h]

theorem claim7_detect_dedup_witness :
    VisionState.detect { handLandmarker := true, lastVideoTime := 5 }
        (fun _ => { landmarks := [] }) 5
      = (none, { handLandmarker := true, lastVideoTime := 5 }, false) :=
  (claim7_detect_dedup { handLandmarker := true, lastVideoTime := 5 }
    (fun _ => { landmarks := [] }) 5 5 rfl rfl).1 rfl

/-- C8 is false as stated: when the underlying detector throws, the frame
tick does not recover it as "no hands this frame" — there is no try/catch on
the path, so the error propagates to the caller of the frame tick. -/
theorem claim8_counterexample :
    tickE (generateStringConfigs 12 PitchRange.mid) 1000 1000 5
        (fun _ => Except.error "detector crashed")
        { handLandmarker := true, lastVideoTime := -1 } EngineState.start
      = Except.error "detector crashed" := by
  norm_num [tickE, VisionState.detectE, Except.map]

/-- C8 (amended): a detector that is not yet initialized is recovered
locally — detect returns none and the frame tick proceeds as if no new
detection arrived, without failing; but a detector that throws is not
caught: the error propagates out of detect and out of the frame tick to its
caller. -/
theorem claim8_detection_unavailable (strs : List StringConfig) (now width t : ℚ)
    (ud : ℚ → Except String DetectResult) (vs : VisionState) (s : EngineState) :
    (vs.handLandmarker = false →
      tickE strs now width t ud vs s = Except.ok (vs, tick strs now width none s)) ∧
    (∀ e, vs.handLandmarker = true → t ≠ vs.lastVideoTime → ud t = Except.error e →
      tickE strs now width t ud vs s = Except.error e) := by
  constructor
  · intro h
    simp [tickE, VisionState.detectE, h]
  · intro e h1 h2 h3
    simp [tickE, VisionState.detectE, h1, h2, h3, Except.map]

theorem claim8_detection_unavailable_witness :
    tickE [] 1 1 5 (fun _ => Except.error "boom")
        { handLandmarker := false, lastVideoTime := -1 } EngineState.start
      = Except.ok ({ handLandmarker := false, lastVideoTime := -1 },
          tick [] 1 1 none EngineState.start) ∧
    tickE [] 1 1 5 (fun _ => Except.error "boom")
        { handLandmarker := true, lastVideoTime := -1 } EngineState.start
      = Except.error "boom" :=
  ⟨(claim8_detection_unavailable [] 1 1 5 (fun _ => Except.error "boom")
      { handLandmarker := false, lastVideoTime := -1 } EngineState.start).1 rfl,
   (claim8_detection_unavailable [] 1 1 5 (fun _ => Except.error "boom")
      { handLandmarker := true, lastVideoTime := -1 } EngineState.start).2 "boom" rfl
      (by norm_num) rfl⟩

/-! ### Audio service instrument loading -/

theorem requestLoad_ctxOk (s : AudioState) (n : String) :
    ((requestLoad s n).1).ctxOk = s.ctxOk := by
  unfold requestLoad
  split
  · rfl
  · split <;> rfl

theorem requestLoad_name (s : AudioState) (n : String) (h : s.ctxOk = true) :
    ((requestLoad s n).1).currentInstrumentName = n := by
  unfold requestLoad
  rw [if_neg (by simp [h])]
  split
  case isTrue hc => exact hc.1
  case isFalse => rfl

theorem completeLoad_ne (s : AudioState) (nm : String) (q : Nat)
    (h : s.currentInstrumentName ≠ nm) : completeLoad s nm q = s := by
  unfold completeLoad
  rw [if_neg h]

/-- C9: requesting instrument a and then, before a's load completes,
instrument b with b different from a, makes the completion of a's load a
no-op — the state (in particular the active player) is unchanged by it;
currentInstrumentName always records the most recently requested name, and a
completion whose captured loadingName differs from it never installs its
player. -/
theorem claim9_superseded_load (s : AudioState) (a b : String) (p : Nat)
    (hab : a ≠ b) (hctx : s.ctxOk = true) :
    (completeLoad ((requestLoad ((requestLoad s a).1) b).1) a p
        = (requestLoad ((requestLoad s a).1) b).1) ∧
    (∀ s2 : AudioState, ∀ n : String, s2.ctxOk = true →
        ((requestLoad s2 n).1).currentInstrumentName = n) ∧
    (∀ s2 : AudioState, ∀ nm : String, ∀ q : Nat,
        s2.currentInstrumentName ≠ nm → completeLoad s2 nm q = s2) := by
  refine ⟨?_, fun s2 n h => requestLoad_name s2 n h,
    fun s2 nm q h => completeLoad_ne s2 nm q h⟩
  have h1 : ((requestLoad s a).1).ctxOk = true := by
    rw [requestLoad_ctxOk]
    exact hctx
  have h2 : ((requestLoad ((requestLoad s a).1) b).1).currentInstrumentName = b :=
    requestLoad_name _ b h1
  apply completeLoad_ne
  rw [h2]
  exact Ne.symm hab

theorem claim9_superseded_load_witness :
    completeLoad ((requestLoad ((requestLoad
        { ctxOk := true, currentInstrumentName := "music_box", instrument := none }
        "violin").1) "marimba").1) "violin" 7
      = (requestLoad ((requestLoad
        { ctxOk := true, currentInstrumentName := "music_box", instrument := none }
        "violin").1) "marimba").1 :=
  (claim9_superseded_load
    { ctxOk := true, currentInstrumentName := "music_box", instrument := none }
    "violin" "marimba" 7 (by decide) rfl).1

/-! ### Bend fold helpers -/

theorem bendFoldStep_invisible (xPos vib width acc : ℚ) (f : Finger)
    (hv : ¬ f.visible = true) : bendFoldStep xPos vib width acc f = acc := by
  unfold bendFoldStep
  rw [if_neg hv]

theorem bendFoldStep_far (xPos vib width acc : ℚ) (f : Finger)
    (hfar : reachThreshold ≤ qabs (f.x - xPos)) :
    bendFoldStep xPos vib width acc f = acc := by
  unfold bendFoldStep
  split
  case isFalse => rfl
  case isTrue hv =>
    dsimp only
    have hne : ¬ (qabs (f.x - xPos) < reachThreshold ∧ vib < 1 / 10) :=
      fun hc => absurd hc.1 (not_lt.mpr hfar)
    rw [if_neg hne]

theorem closestBend_far (fingers : List Finger) (xPos vib width : ℚ)
    (hfar : ∀ f ∈ fingers, f.visible = true → reachThreshold ≤ qabs (f.x - xPos)) :
    closestBendCalc fingers xPos vib width = 0 := by
  unfold closestBendCalc
  apply foldl_fixed
  intro f hf acc
  by_cases hv : f.visible = true
  · exact bendFoldStep_far xPos vib width acc f (hfar f hf hv)
  · exact bendFoldStep_invisible xPos vib width acc f hv

theorem updateBend_zero (p : StringPhys) :
    updateBend p 0 = { p with bend := p.bend * (8 / 10) } := by
  unfold updateBend
  rw [if_neg (by norm_num)]

/-! ### No-hands frames: cache retention and absence of spurious events -/

theorem updateCache_noHands (cache : Option (List Hand)) (results : Option DetectResult)
    (h : results = some { landmarks := [] } ∨ results = none) :
    updateCache cache results = cache := by
  rcases h with rfl | rfl
  · simp [updateCache]
  · rfl

theorem consistency_no_fire (fingers : List Finger) (pX : List (Option ℚ)) (pV : List Bool)
    (hcons : ∀ (i : Nat) (f : Finger), fingers[i]? = some f → f.visible = true →
      (pX[i]?).getD none = some f.x) :
    ∀ fi ∈ fingers.enum, ∀ xPos, ¬ firesAt fi pX pV xPos := by
  intro fi hfi xPos hf
  obtain ⟨hv, hw, hy, px, hpx, hcross⟩ := hf
  have hget : fingers[fi.1]? = some fi.2 := List.mem_enum_iff_getElem?.mp hfi
  have hpx2 := hcons fi.1 fi.2 hget hv
  rw [hpx2] at hpx
  cases hpx
  rcases hcross with ⟨h1, h2⟩ | ⟨h1, h2⟩ <;> linarith

theorem processString_no_fire (fingers : List Finger) (pX : List (Option ℚ)) (pV : List Bool)
    (now width : ℚ) (acc : FrameAcc) (cfg : StringConfig)
    (hall : ∀ fi ∈ fingers.enum, ¬ firesAt fi pX pV cfg.xPos) :
    processString fingers pX pV now width acc cfg =
      { physics := aset cfg.id
          (updateBend ((alookup cfg.id acc.physics).getD { vibration := 0, bend := 0 })
            (closestBendCalc fingers cfg.xPos
              ((alookup cfg.id acc.physics).getD { vibration := 0, bend := 0 }).vibration width))
          acc.physics,
        ledger := acc.ledger, events := acc.events } := by
  unfold processString
  dsimp only
  rw [foldl_fixed _ _ _ fun fi hfi a =>
    trigStep_skip cfg.id cfg.xPos now pX pV a fi (hall fi hfi)]

theorem runStrings_no_fire_events (strs : List StringConfig) (fingers : List Finger)
    (pX : List (Option ℚ)) (pV : List Bool) (now width : ℚ)
    (hall : ∀ fi ∈ fingers.enum, ∀ xPos, ¬ firesAt fi pX pV xPos) :
    ∀ acc : FrameAcc, (runStrings strs fingers pX pV now width acc).events = acc.events := by
  induction strs with
  | nil => intro acc; rfl
  | cons c strs ih =>
    intro acc
    rw [show runStrings (c :: strs) fingers pX pV now width acc
        = runStrings strs fingers pX pV now width
            (processString fingers pX pV now width acc c) from rfl]
    rw [ih, processString_no_fire fingers pX pV now width acc c
      fun fi hfi => hall fi hfi c.xPos]

/-! ### Vibration decay in the render pass -/

theorem decayString_bend (m : List (Nat × StringPhys)) (cfg : StringConfig) (sid : Nat) :
    ((alookup sid (decayString m cfg)).getD { vibration := 0, bend := 0 }).bend
      = ((alookup sid m).getD { vibration := 0, bend := 0 }).bend := by
  unfold decayString
  split
  case h_1 p hp =>
    by_cases h : sid = cfg.id
    · rw [h, alookup_aset_self, hp]
      rfl
    · rw [alookup_aset_ne sid cfg.id _ _ h]
  case h_2 => rfl

theorem renderDecay_bend (strs : List StringConfig) (sid : Nat) :
    ∀ m, ((alookup sid (renderDecay strs m)).getD { vibration := 0, bend := 0 }).bend
      = ((alookup sid m).getD { vibration := 0, bend := 0 }).bend := by
  induction strs with
  | nil => intro m; rfl
  | cons c strs ih =>
    intro m
    rw [show renderDecay (c :: strs) m = renderDecay strs (decayString m c) from rfl]
    rw [ih, decayString_bend]

/-- C5 is false as stated: after a frame with one visible finger at 0.54
bending the single string at 0.5 (bend 16), two consecutive frames in which
the detector reports no hands leave the cached landmark set intact (it is
not cleared) and leave the bend frozen at 16 instead of decaying by 0.8 per
frame; no crossing events fire. -/
theorem claim5_counterexample :
    lostHandState1.lastLandmarks = some [{ tip := some (1 - 27 / 50, 3 / 10) }] ∧
    lostHandRun2.1.lastLandmarks = lostHandState1.lastLandmarks ∧
    ((alookup 0 lostHandState1.stringPhysics).getD { vibration := 0, bend := 0 }).bend = 16 ∧
    ((alookup 0 lostHandRun2.1.stringPhysics).getD { vibration := 0, bend := 0 }).bend = 16 ∧
    ((alookup 0 lostHandRun3.1.stringPhysics).getD { vibration := 0, bend := 0 }).bend = 16 ∧
    (16 : ℚ) ≠ 16 * (8 / 10) ∧
    lostHandRun2.2 = [] ∧ lostHandRun3.2 = [] := by
  refine ⟨?_, ?_, ?_, ?_, ?_, by norm_num, ?_, ?_⟩ <;>
    norm_num [lostHandState1, lostHandRun2, lostHandRun3, oneHandAt, noHandsResult,
      tick, generateStringConfigs, octaveStart, updateCache, fingerPositionsOf, fingerSlot,
      runStrings, processString, trigStep, alookup, aset, closestBendCalc, bendFoldStep,
      updateBend, pullFactorOf, qabs, reachThreshold, IN_STRING_AREA_Y, DEBOUNCE_MS,
      updatePrev, renderDecay, decayString, vibDecay, EngineState.start,
      List.range, List.range.loop, List.enum, List.enumFrom, List.foldl]

/-- C5 (amended): when the detector reports no hands (or no new result), the
cached landmark set is retained, not cleared; no spurious crossing events
fire, because each cached finger's position equals its recorded previous
position; and the bend of a string out of reach of every cached visible
finger decays by the factor 0.8 that frame — but a string still within
reach of a stale cached finger keeps its bend recomputed instead (see the
counterexample). -/
theorem claim5_no_hands (strs : List StringConfig) (N : Nat) (range : PitchRange)
    (sid : Nat) (now width : ℚ) (results : Option DetectResult) (s : EngineState)
    (hres : results = some { landmarks := [] } ∨ results = none)
    (hcons : ∀ (i : Nat) (f : Finger), (fingerPositionsOf s.lastLandmarks)[i]? = some f →
      f.visible = true → (s.prevFingerX[i]?).getD none = some f.x)
    (hsid : sid < N)
    (hfar : ∀ f ∈ fingerPositionsOf s.lastLandmarks, f.visible = true →
      reachThreshold ≤ qabs (f.x - ((sid : ℚ) + 1) / ((N : ℚ) + 1))) :
    updateCache s.lastLandmarks results = s.lastLandmarks ∧
    (tick strs now width results s).2 = [] ∧
    ((alookup sid (tick (generateStringConfigs N range) now width results s).1.stringPhysics).getD
        { vibration := 0, bend := 0 }).bend
      = ((alookup sid s.stringPhysics).getD { vibration := 0, bend := 0 }).bend * (8 / 10) := by
  have hcache := updateCache_noHands s.lastLandmarks results hres
  have hall := consistency_no_fire (fingerPositionsOf s.lastLandmarks)
    s.prevFingerX s.prevFingerVisible hcons
  refine ⟨hcache, ?_, ?_⟩
  · have htick : (tick strs now width results s).2 =
        (runStrings strs (fingerPositionsOf (updateCache s.lastLandmarks results))
          s.prevFingerX s.prevFingerVisible now width
          { physics := s.stringPhysics, ledger := s.lastTriggerTimes, events := [] }).events := rfl
    rw [htick, hcache]
    exact runStrings_no_fire_events strs _ _ _ now width hall _
  · obtain ⟨A, B, c, hsplit, hA, hB, hcid, hcx⟩ := gsc_split N range sid hsid
    have htick : (tick (generateStringConfigs N range) now width results s).1.stringPhysics =
        renderDecay (generateStringConfigs N range)
          (runStrings (generateStringConfigs N range)
            (fingerPositionsOf (updateCache s.lastLandmarks results))
            s.prevFingerX s.prevFingerVisible now width
            { physics := s.stringPhysics, ledger := s.lastTriggerTimes, events := [] }).physics :=
      rfl
    rw [htick, hcache, renderDecay_bend, hsplit]
    rw [show runStrings (A ++ c :: B) (fingerPositionsOf s.lastLandmarks)
        s.prevFingerX s.prevFingerVisible now width
        { physics := s.stringPhysics, ledger := s.lastTriggerTimes, events := [] }
      = runStrings B (fingerPositionsOf s.lastLandmarks)
          s.prevFingerX s.prevFingerVisible now width
          (processString (fingerPositionsOf s.lastLandmarks)
            s.prevFingerX s.prevFingerVisible now width
            (runStrings A (fingerPositionsOf s.lastLandmarks)
              s.prevFingerX s.prevFingerVisible now width
              { physics := s.stringPhysics, ledger := s.lastTriggerTimes, events := [] }) c)
      from by
        unfold runStrings
        rw [List.foldl_append, List.foldl_cons]]
    obtain ⟨hA1, hA2, hA3⟩ := runStrings_preserve A (fingerPositionsOf s.lastLandmarks)
      s.prevFingerX s.prevFingerVisible now width
      { physics := s.stringPhysics, ledger := s.lastTriggerTimes, events := [] } sid hA
    rw [processString_no_fire _ _ _ now width _ c fun fi hfi => hall fi hfi c.xPos]
    have hBpres := (runStrings_preserve B (fingerPositionsOf s.lastLandmarks)
      s.prevFingerX s.prevFingerVisible now width
      { physics := aset c.id
          (updateBend ((alookup c.id (runStrings A (fingerPositionsOf s.lastLandmarks)
              s.prevFingerX s.prevFingerVisible now width
              { physics := s.stringPhysics, ledger := s.lastTriggerTimes,
                events := [] }).physics).getD { vibration := 0, bend := 0 })
            (closestBendCalc (fingerPositionsOf s.lastLandmarks) c.xPos
              ((alookup c.id (runStrings A (fingerPositionsOf s.lastLandmarks)
                s.prevFingerX s.prevFingerVisible now width
                { physics := s.stringPhysics, ledger := s.lastTriggerTimes,
                  events := [] }).physics).getD { vibration := 0, bend := 0 }).vibration width))
          (runStrings A (fingerPositionsOf s.lastLandmarks)
            s.prevFingerX s.prevFingerVisible now width
            { physics := s.stringPhysics, ledger := s.lastTriggerTimes, events := [] }).physics,
        ledger := (runStrings A (fingerPositionsOf s.lastLandmarks)
          s.prevFingerX s.prevFingerVisible now width
          { physics := s.stringPhysics, ledger := s.lastTriggerTimes, events := [] }).ledger,
        events := (runStrings A (fingerPositionsOf s.lastLandmarks)
          s.prevFingerX s.prevFingerVisible now width
          { physics := s.stringPhysics, ledger := s.lastTriggerTimes, events := [] }).events }
      sid hB).2.2
    rw [hBpres]
    have hcxfar : ∀ f ∈ fingerPositionsOf s.lastLandmarks, f.visible = true →
        reachThreshold ≤ qabs (f.x - c.xPos) := by
      rw [hcx]
      exact hfar
    rw [← hcid, alookup_aset_self, closestBend_far _ _ _ _ hcxfar, updateBend_zero]
    rw [hcid, hA3]
    rfl

theorem claim5_no_hands_witness :
    updateCache farHandState.lastLandmarks noHandsResult = farHandState.lastLandmarks ∧
    (tick (generateStringConfigs 1 PitchRange.mid) 1120 1000 noHandsResult
      farHandState).2 = [] ∧
    ((alookup 0 (tick (generateStringConfigs 1 PitchRange.mid) 1120 1000 noHandsResult
        farHandState).1.stringPhysics).getD { vibration := 0, bend := 0 }).bend
      = ((alookup 0 farHandState.stringPhysics).getD
          { vibration := 0, bend := 0 }).bend * (8 / 10) := by
  have hfp : fingerPositionsOf farHandState.lastLandmarks
      = [{ x := 9 / 10, y := 3 / 10, visible := true },
         { x := -1, y := -1, visible := false }] := by
    norm_num [farHandState, fingerPositionsOf, fingerSlot]
  refine claim5_no_hands (generateStringConfigs 1 PitchRange.mid) 1 PitchRange.mid 0
    1120 1000 noHandsResult farHandState (Or.inl rfl) ?_ (by norm_num) ?_
  · intro i f hif hv
    rw [hfp] at hif
    match i, hif with
    | 0, hif =>
      cases hif
      rfl
    | 1, hif =>
      cases hif
      cases hv
  · intro f hf hv
    rw [hfp] at hf
    simp only [List.mem_cons, List.not_mem_nil, or_false] at hf
    rcases hf with rfl | rfl
    · norm_num [qabs, reachThreshold]
    · cases hv

/-! ### The vibration range invariant -/

theorem updateBend_vibration (p : StringPhys) (cb : ℚ) :
    (updateBend p cb).vibration = p.vibration := by
  unfold updateBend
  split <;> rfl

theorem physInRange_aset (m : List (Nat × StringPhys)) (k : Nat) (v : StringPhys)
    (hm : physInRange m) (hv : 0 ≤ v.vibration ∧ v.vibration ≤ 1) :
    physInRange (aset k v m) := by
  intro kv hkv
  rcases mem_aset k v m kv hkv with h | h
  · rw [h]
    exact hv
  · exact hm kv h

theorem physInRange_getD (m : List (Nat × StringPhys)) (k : Nat) (hm : physInRange m) :
    0 ≤ ((alookup k m).getD { vibration := 0, bend := 0 }).vibration ∧
    ((alookup k m).getD { vibration := 0, bend := 0 }).vibration ≤ 1 := by
  cases h : alookup k m with
  | none => exact ⟨le_refl 0, by norm_num⟩
  | some p => simpa using hm (k, p) (alookup_mem k m p h)

theorem physInRange_processString (fingers : List Finger) (pX : List (Option ℚ))
    (pV : List Bool) (now width : ℚ) (acc : FrameAcc) (cfg : StringConfig)
    (hm : physInRange acc.physics) :
    physInRange (processString fingers pX pV now width acc cfg).physics := by
  rcases processString_cases fingers pX pV now width acc cfg with h | ⟨y, h⟩ <;> rw [h]
  · apply physInRange_aset _ _ _ hm
    rw [updateBend_vibration]
    exact physInRange_getD acc.physics cfg.id hm
  · apply physInRange_aset _ _ _ hm
    norm_num

theorem physInRange_runStrings (strs : List StringConfig) (fingers : List Finger)
    (pX : List (Option ℚ)) (pV : List Bool) (now width : ℚ) :
    ∀ acc : FrameAcc, physInRange acc.physics →
      physInRange (runStrings strs fingers pX pV now width acc).physics := by
  induction strs with
  | nil => exact fun acc hm => hm
  | cons c strs ih =>
    intro acc hm
    rw [show runStrings (c :: strs) fingers pX pV now width acc
        = runStrings strs fingers pX pV now width
            (processString fingers pX pV now width acc c) from rfl]
    exact ih _ (physInRange_processString fingers pX pV now width acc c hm)

theorem vibDecay_range (v : ℚ) (h : 0 ≤ v ∧ v ≤ 1) :
    0 ≤ vibDecay v ∧ vibDecay v ≤ 1 := by
  unfold vibDecay
  split
  · constructor
    · have := h.1
      nlinarith
    · have := h.2
      nlinarith
  · exact h

theorem physInRange_decayString (m : List (Nat × StringPhys)) (cfg : StringConfig)
    (hm : physInRange m) : physInRange (decayString m cfg) := by
  unfold decayString
  split
  case h_1 p hp =>
    apply physInRange_aset _ _ _ hm
    exact vibDecay_range p.vibration (hm (cfg.id, p) (alookup_mem _ _ _ hp))
  case h_2 => exact hm

theorem physInRange_renderDecay (strs : List StringConfig) :
    ∀ m, physInRange m → physInRange (renderDecay strs m) := by
  induction strs with
  | nil => exact fun m hm => hm
  | cons c strs ih =>
    intro m hm
    rw [show renderDecay (c :: strs) m = renderDecay strs (decayString m c) from rfl]
    exact ih _ (physInRange_decayString m c hm)

/-- C10: if every vibration stored in the physics map lies in [0, 1], the
same holds after a full frame of the engine — the lazy initializer writes 0,
a pluck writes exactly 1.0, the bend update leaves vibration unchanged, and
the render damping multiplies a value of [0, 1] by 0.92 only while it
exceeds 0.01 — so vibration never exceeds 1 nor drops below 0. -/
theorem claim10_vibration_range (strs : List StringConfig) (now width : ℚ)
    (results : Option DetectResult) (s : EngineState)
    (h : physInRange s.stringPhysics) :
    physInRange (tick strs now width results s).1.stringPhysics := by
  have htick : (tick strs now width results s).1.stringPhysics
      = renderDecay strs (runStrings strs
          (fingerPositionsOf (updateCache s.lastLandmarks results))
          s.prevFingerX s.prevFingerVisible now width
          { physics := s.stringPhysics, ledger := s.lastTriggerTimes, events := [] }).physics :=
    rfl
  rw [htick]
  exact physInRange_renderDecay strs _
    (physInRange_runStrings strs _ s.prevFingerX s.prevFingerVisible now width
      { physics := s.stringPhysics, ledger := s.lastTriggerTimes, events := [] } h)

theorem claim10_vibration_range_witness :
    physInRange (tick (generateStringConfigs 1 PitchRange.mid) 1000 1000
      (oneHandAt (27 / 50) (3 / 10)) EngineState.start).1.stringPhysics :=
  claim10_vibration_range (generateStringConfigs 1 PitchRange.mid) 1000 1000
    (oneHandAt (27 / 50) (3 / 10)) EngineState.start
    (fun kv hkv => absurd hkv (List.not_mem_nil kv))

/-! ### The sweep scenario -/

set_option maxHeartbeats 4000000 in
/-- C2 is false as stated: sweeping a visible finger at y = 0.3 from 0.05 to
0.95 over the 12-string mid-range layout, crossing each string once, with
consecutive frames 16 ms apart, produces exactly 12 Pluck Events, one per
string id in ascending order — but consecutive events are only 16 ms apart,
well under DEBOUNCE_MS: the debounce ledger is per string, so it never
separates events of different strings. -/
theorem claim2_counterexample :
    ((runFrames (generateStringConfigs 12 PitchRange.mid) 1000 (sweepFrames 1000 16)
        EngineState.start).2).map PluckEvent.stringId = List.range 12 ∧
    ((runFrames (generateStringConfigs 12 PitchRange.mid) 1000 (sweepFrames 1000 16)
        EngineState.start).2).map PluckEvent.timeMs
      = [1016, 1032, 1048, 1064, 1080, 1096, 1112, 1128, 1144, 1160, 1176, 1192] ∧
    ¬ List.Chain' (fun a b => DEBOUNCE_MS ≤ b.timeMs - a.timeMs)
        ((runFrames (generateStringConfigs 12 PitchRange.mid) 1000 (sweepFrames 1000 16)
          EngineState.start).2) := by
  have hev : (runFrames (generateStringConfigs 12 PitchRange.mid) 1000 (sweepFrames 1000 16)
      EngineState.start).2 =
      [{ stringId := 0, timeMs := 1016, fingerY := 3 / 10 },
       { stringId := 1, timeMs := 1032, fingerY := 3 / 10 },
       { stringId := 2, timeMs := 1048, fingerY := 3 / 10 },
       { stringId := 3, timeMs := 1064, fingerY := 3 / 10 },
       { stringId := 4, timeMs := 1080, fingerY := 3 / 10 },
       { stringId := 5, timeMs := 1096, fingerY := 3 / 10 },
       { stringId := 6, timeMs := 1112, fingerY := 3 / 10 },
       { stringId := 7, timeMs := 1128, fingerY := 3 / 10 },
       { stringId := 8, timeMs := 1144, fingerY := 3 / 10 },
       { stringId := 9, timeMs := 1160, fingerY := 3 / 10 },
       { stringId := 10, timeMs := 1176, fingerY := 3 / 10 },
       { stringId := 11, timeMs := 1192, fingerY := 3 / 10 }] := by
    norm_num [runFrames, sweepFrames, sweepXs, oneHandAt, tick, generateStringConfigs,
      octaveStart, updateCache, fingerPositionsOf, fingerSlot, runStrings, processString,
      trigStep, alookup, aset, closestBendCalc, bendFoldStep, updateBend, pullFactorOf,
      qabs, reachThreshold, IN_STRING_AREA_Y, DEBOUNCE_MS, updatePrev, renderDecay,
      decayString, vibDecay, EngineState.start, List.range, List.range.loop,
      List.enum, List.enumFrom, List.foldl]
  refine ⟨by rw [hev]; rfl, by rw [hev]; rfl, ?_⟩
  rw [hev]
  norm_num [List.chain'_cons, DEBOUNCE_MS]

set_option maxHeartbeats 4000000 in
/-- C2 (amended): in the same sweep with consecutive frames more than
DEBOUNCE_MS apart (150 ms), exactly 12 Pluck Events fire, one per string id
in ascending order, each carrying the finger's y, and every pair of
consecutive events is at least DEBOUNCE_MS apart.  (The original claim's
spacing guarantee holds only because the frames themselves are that far
apart; the per-string debounce never enforces spacing between different
strings.) -/
theorem claim2_sweep :
    (runFrames (generateStringConfigs 12 PitchRange.mid) 1000 (sweepFrames 1000 150)
        EngineState.start).2 =
      [{ stringId := 0, timeMs := 1150, fingerY := 3 / 10 },
       { stringId := 1, timeMs := 1300, fingerY := 3 / 10 },
       { stringId := 2, timeMs := 1450, fingerY := 3 / 10 },
       { stringId := 3, timeMs := 1600, fingerY := 3 / 10 },
       { stringId := 4, timeMs := 1750, fingerY := 3 / 10 },
       { stringId := 5, timeMs := 1900, fingerY := 3 / 10 },
       { stringId := 6, timeMs := 2050, fingerY := 3 / 10 },
       { stringId := 7, timeMs := 2200, fingerY := 3 / 10 },
       { stringId := 8, timeMs := 2350, fingerY := 3 / 10 },
       { stringId := 9, timeMs := 2500, fingerY := 3 / 10 },
       { stringId := 10, timeMs := 2650, fingerY := 3 / 10 },
       { stringId := 11, timeMs := 2800, fingerY := 3 / 10 }] ∧
    ((runFrames (generateStringConfigs 12 PitchRange.mid) 1000 (sweepFrames 1000 150)
        EngineState.start).2).map PluckEvent.stringId = List.range 12 ∧
    List.Chain' (fun a b => DEBOUNCE_MS ≤ b.timeMs - a.timeMs)
        ((runFrames (generateStringConfigs 12 PitchRange.mid) 1000 (sweepFrames 1000 150)
          EngineState.start).2) := by
  have hev : (runFrames (generateStringConfigs 12 PitchRange.mid) 1000 (sweepFrames 1000 150)
      EngineState.start).2 =
      [{ stringId := 0, timeMs := 1150, fingerY := 3 / 10 },
       { stringId := 1, timeMs := 1300, fingerY := 3 / 10 },
       { stringId := 2, timeMs := 1450, fingerY := 3 / 10 },
       { stringId := 3, timeMs := 1600, fingerY := 3 / 10 },
       { stringId := 4, timeMs := 1750, fingerY := 3 / 10 },
       { stringId := 5, timeMs := 1900, fingerY := 3 / 10 },
       { stringId := 6, timeMs := 2050, fingerY := 3 / 10 },
       { stringId := 7, timeMs := 2200, fingerY := 3 / 10 },
       { stringId := 8, timeMs := 2350, fingerY := 3 / 10 },
       { stringId := 9, timeMs := 2500, fingerY := 3 / 10 },
       { stringId := 10, timeMs := 2650, fingerY := 3 / 10 },
       { stringId := 11, timeMs := 2800, fingerY := 3 / 10 }] := by
    norm_num [runFrames, sweepFrames, sweepXs, oneHandAt, tick, generateStringConfigs,
      octaveStart, updateCache, fingerPositionsOf, fingerSlot, runStrings, processString,
      trigStep, alookup, aset, closestBendCalc, bendFoldStep, updateBend, pullFactorOf,
      qabs, reachThreshold, IN_STRING_AREA_Y, DEBOUNCE_MS, updatePrev, renderDecay,
      decayString, vibDecay, EngineState.start, List.range, List.range.loop,
      List.enum, List.enumFrom, List.foldl]
  refine ⟨hev, by rw [hev]; rfl, ?_⟩
  rw [hev]
  norm_num [List.chain'_cons, DEBOUNCE_MS]

theorem generateStringConfigs_length (count : Nat) (range : PitchRange) :
    (generateStringConfigs count range).length = count := by
  simp [generateStringConfigs]

theorem generateStringConfigs_get (count : Nat) (range : PitchRange)
    (i : Nat) (h : i < (generateStringConfigs count range).length) :
    (generateStringConfigs count range).get ⟨i, h⟩ =
      { id := i
        note := C_MAJOR_SCALE.getD (i % C_MAJOR_SCALE.length) "C"
                  ++ toString (octaveStart range + i / C_MAJOR_SCALE.length)
        color := STRING_COLORS.getD (i % STRING_COLORS.length) ""
        xPos := ((i : ℚ) + 1) / ((count : ℚ) + 1) } := by
  simp [generateStringConfigs]

/-- C6: for every string count N ≥ 1 and every pitch range, the layout
generator returns exactly N descriptors whose ids are 0,…,N−1 in order, whose
xPos values equal (i+1)/(N+1), lie strictly between 0 and 1, and are strictly
increasing in id order; and the generator is deterministic (identical inputs
give identical output). -/
theorem claim6_layout (N : Nat) (range : PitchRange) (hN : 1 ≤ N) :
    (generateStringConfigs N range).length = N ∧
    (∀ i (h : i < (generateStringConfigs N range).length),
        ((generateStringConfigs N range).get ⟨i, h⟩).id = i ∧
        ((generateStringConfigs N range).get ⟨i, h⟩).xPos
          = ((i : ℚ) + 1) / ((N : ℚ) + 1) ∧
        0 < ((generateStringConfigs N range).get ⟨i, h⟩).xPos ∧
        ((generateStringConfigs N range).get ⟨i, h⟩).xPos < 1) ∧
    (∀ i j (hi : i < (generateStringConfigs N range).length)
        (hj : j < (generateStringConfigs N range).length), i < j →
        ((generateStringConfigs N range).get ⟨i, hi⟩).xPos
          < ((generateStringConfigs N range).get ⟨j, hj⟩).xPos) ∧
    generateStringConfigs N range = generateStringConfigs N range := by
  have hlen := generateStringConfigs_length N range
  have hden : (0 : ℚ) < (N : ℚ) + 1 := by positivity
  refine ⟨hlen, ?_, ?_, rfl⟩
  · intro i h
    have hi : i < N := by simpa [hlen] using h
    rw [generateStringConfigs_get]
    refine ⟨rfl, rfl, by positivity, ?_⟩
    rw [div_lt_one hden]
    have : (i : ℚ) < (N : ℚ) := by exact_mod_cast hi
    linarith
  · intro i j hi hj hij
    rw [generateStringConfigs_get, generateStringConfigs_get]
    have h2 : (i : ℚ) < (j : ℚ) := by exact_mod_cast hij
    show ((i : ℚ) + 1) / ((N : ℚ) + 1) < ((j : ℚ) + 1) / ((N : ℚ) + 1)
    rw [div_lt_div_iff₀ hden hden]
    nlinarith

theorem claim6_layout_witness :
    (generateStringConfigs 3 PitchRange.mid).length = 3 :=
  (claim6_layout 3 PitchRange.mid (by norm_num)).1

end AirPiano
